import Mathlib

/-!
Verification of the gitbom-rs core library (src/lib.rs).

The development shallowly embeds the library:
bytes are `Nat` values (reduced mod 256 where the code depends on byte width),
SHA-1 and SHA-256 are modelled as executable functions on byte lists with all
32-bit arithmetic taken mod 2^32, the incremental hasher interface
(update / finalize) is modelled by accumulating the fed bytes and digesting the
concatenation at finalize, and the `BufReader` consumed by the streaming path is
modelled as the list of outcomes its successive `read` calls produce.
-/

namespace GitbomRs

/-! ### 32-bit arithmetic helpers -/

def m32 (x : Nat) : Nat := x % 4294967296

def rotl32 (s x : Nat) : Nat :=
  ((x % 4294967296) <<< s ||| (x % 4294967296) >>> (32 - s)) % 4294967296

def rotr32 (s x : Nat) : Nat :=
  ((x % 4294967296) >>> s ||| (x % 4294967296) <<< (32 - s)) % 4294967296

def wordOfBytes (a b c d : Nat) : Nat :=
  (a % 256) <<< 24 ||| (b % 256) <<< 16 ||| (c % 256) <<< 8 ||| (d % 256)

def bytesToWords : List Nat → List Nat
  | a :: b :: c :: d :: rest => wordOfBytes a b c d :: bytesToWords rest
  | _ => []

def wordBytes (w : Nat) : List Nat :=
  [(w >>> 24) % 256, (w >>> 16) % 256, (w >>> 8) % 256, w % 256]

/-! ### Merkle–Damgård padding shared by SHA-1 and SHA-256 -/

def lenBytes (n : Nat) : List Nat :=
  [(n >>> 56) % 256, (n >>> 48) % 256, (n >>> 40) % 256, (n >>> 32) % 256,
   (n >>> 24) % 256, (n >>> 16) % 256, (n >>> 8) % 256, n % 256]

def padBytes (msg : List Nat) : List Nat :=
  msg ++ 128 :: List.replicate ((64 - ((msg.length + 9) % 64)) % 64) 0 ++ lenBytes (8 * msg.length)

def toBlocksAux : Nat → List Nat → List (List Nat)
  | 0, _ => []
  | _, [] => []
  | n + 1, ws => ws.take 16 :: toBlocksAux n (ws.drop 16)

def toBlocks (ws : List Nat) : List (List Nat) := toBlocksAux ws.length ws

/-! ### SHA-1 -/

def sha1K (t : Nat) : Nat :=
  if t < 20 then 1518500249 else if t < 40 then 1859775393
  else if t < 60 then 2400959708 else 3395469782

def sha1F (t b c d : Nat) : Nat :=
  if t < 20 then (b &&& c) ||| ((b ^^^ 4294967295) &&& d)
  else if t < 40 then b ^^^ c ^^^ d
  else if t < 60 then (b &&& c) ||| (b &&& d) ||| (c &&& d)
  else b ^^^ c ^^^ d

def sha1Extend (block : List Nat) : List Nat :=
  (List.range 64).foldl (fun acc i =>
    acc ++ [rotl32 1 (acc.getD (i + 13) 0 ^^^ acc.getD (i + 8) 0 ^^^
                      acc.getD (i + 2) 0 ^^^ acc.getD i 0)]) block

def sha1Compress (st : Nat × Nat × Nat × Nat × Nat) (block : List Nat) :
    Nat × Nat × Nat × Nat × Nat :=
  let r := (sha1Extend block).enum.foldl (fun s tw =>
    (m32 (rotl32 5 s.1 + sha1F tw.1 s.2.1 s.2.2.1 s.2.2.2.1 + s.2.2.2.2 + sha1K tw.1 + tw.2),
     s.1, rotl32 30 s.2.1, s.2.2.1, s.2.2.2.1)) st
  (m32 (st.1 + r.1), m32 (st.2.1 + r.2.1), m32 (st.2.2.1 + r.2.2.1),
   m32 (st.2.2.2.1 + r.2.2.2.1), m32 (st.2.2.2.2 + r.2.2.2.2))

def sha1Init : Nat × Nat × Nat × Nat × Nat :=
  (1732584193, 4023233417, 2562383102, 271733878, 3285377520)

def sha1Digest (msg : List Nat) : List Nat :=
  let st := (toBlocks (bytesToWords (padBytes msg))).foldl sha1Compress sha1Init
  wordBytes st.1 ++ wordBytes st.2.1 ++ wordBytes st.2.2.1 ++
  wordBytes st.2.2.2.1 ++ wordBytes st.2.2.2.2

/-! ### SHA-256 -/

def sha256K : List Nat :=
  [1116352408, 1899447441, 3049323471, 3921009573, 961987163, 1508970993,
   2453635748, 2870763221, 3624381080, 310598401, 607225278, 1426881987,
   1925078388, 2162078206, 2614888103, 3248222580, 3835390401, 4022224774,
   264347078, 604807628, 770255983, 1249150122, 1555081692, 1996064986,
   2554220882, 2821834349, 2952996808, 3210313671, 3336571891, 3584528711,
   113926993, 338241895, 666307205, 773529912, 1294757372, 1396182291,
   1695183700, 1986661051, 2177026350, 2456956037, 2730485921, 2820302411,
   3259730800, 3345764771, 3516065817, 3600352804, 4094571909, 275423344,
   430227734, 506948616, 659060556, 883997877, 958139571, 1322822218,
   1537002063, 1747873779, 1955562222, 2024104815, 2227730452, 2361852424,
   2428436474, 2756734187, 3204031479, 3329325298]

def bsig0 (x : Nat) : Nat := rotr32 2 x ^^^ rotr32 13 x ^^^ rotr32 22 x

def bsig1 (x : Nat) : Nat := rotr32 6 x ^^^ rotr32 11 x ^^^ rotr32 25 x

def ssig0 (x : Nat) : Nat := rotr32 7 x ^^^ rotr32 18 x ^^^ (x % 4294967296) >>> 3

def ssig1 (x : Nat) : Nat := rotr32 17 x ^^^ rotr32 19 x ^^^ (x % 4294967296) >>> 10

def sha256Ch (e f g : Nat) : Nat := (e &&& f) ^^^ ((e ^^^ 4294967295) &&& g)

def sha256Maj (a b c : Nat) : Nat := (a &&& b) ^^^ (a &&& c) ^^^ (b &&& c)

def sha256Extend (block : List Nat) : List Nat :=
  (List.range 48).foldl (fun acc i =>
    acc ++ [m32 (ssig1 (acc.getD (i + 14) 0) + acc.getD (i + 9) 0 +
                 ssig0 (acc.getD (i + 1) 0) + acc.getD i 0)]) block

def sha256Compress (st : Nat × Nat × Nat × Nat × Nat × Nat × Nat × Nat) (block : List Nat) :
    Nat × Nat × Nat × Nat × Nat × Nat × Nat × Nat :=
  let r := (sha256K.zip (sha256Extend block)).foldl (fun s kw =>
    let t1 := m32 (s.2.2.2.2.2.2.2 + bsig1 s.2.2.2.2.1 +
                   sha256Ch s.2.2.2.2.1 s.2.2.2.2.2.1 s.2.2.2.2.2.2.1 + kw.1 + kw.2)
    let t2 := m32 (bsig0 s.1 + sha256Maj s.1 s.2.1 s.2.2.1)
    (m32 (t1 + t2), s.1, s.2.1, s.2.2.1, m32 (s.2.2.2.1 + t1),
     s.2.2.2.2.1, s.2.2.2.2.2.1, s.2.2.2.2.2.2.1)) st
  (m32 (st.1 + r.1), m32 (st.2.1 + r.2.1), m32 (st.2.2.1 + r.2.2.1),
   m32 (st.2.2.2.1 + r.2.2.2.1), m32 (st.2.2.2.2.1 + r.2.2.2.2.1),
   m32 (st.2.2.2.2.2.1 + r.2.2.2.2.2.1), m32 (st.2.2.2.2.2.2.1 + r.2.2.2.2.2.2.1),
   m32 (st.2.2.2.2.2.2.2 + r.2.2.2.2.2.2.2))

def sha256Init : Nat × Nat × Nat × Nat × Nat × Nat × Nat × Nat :=
  (1779033703, 3144134277, 1013904242, 2773480762,
   1359893119, 2600822924, 528734635, 1541459225)

def sha256Digest (msg : List Nat) : List Nat :=
  let st := (toBlocks (bytesToWords (padBytes msg))).foldl sha256Compress sha256Init
  wordBytes st.1 ++ wordBytes st.2.1 ++ wordBytes st.2.2.1 ++ wordBytes st.2.2.2.1 ++
  wordBytes st.2.2.2.2.1 ++ wordBytes st.2.2.2.2.2.1 ++ wordBytes st.2.2.2.2.2.2.1 ++
  wordBytes st.2.2.2.2.2.2.2

/-! ### Hex rendering (the source's `hex::encode`, which is lowercase) -/

def hexChar (n : Nat) : Char := if n < 10 then Char.ofNat (48 + n) else Char.ofNat (87 + n)

def hexEncode (bs : List Nat) : String :=
  String.mk (List.flatten (bs.map (fun b => [hexChar ((b / 16) % 16), hexChar (b % 16)])))

def strBytes (s : String) : List Nat := s.data.map Char.toNat

/-! ### The library data model: `HashAlgorithm`, `GitOid` and its two generators -/

inductive HashAlgorithm
  | SHA1
  | SHA256
deriving DecidableEq

structure GitOid where
  hash_algorithm : HashAlgorithm

/-- Dispatch on the algorithm, as both `match self.hash_algorithm` expressions
in the source do; each branch feeds the same byte stream to its hash. -/
def hashBytes : HashAlgorithm → List Nat → List Nat
  | HashAlgorithm.SHA1, msg => sha1Digest msg
  | HashAlgorithm.SHA256, msg => sha256Digest msg

/-- The framing bytes the source builds with `format!` from a length:
ASCII "blob ", the decimal rendering of the length, one NUL byte. -/
def framingBytes (n : Nat) : List Nat :=
  strBytes ("blob " ++ toString n ++ String.singleton (Char.ofNat 0))

/-- `GitOid::generate_git_oid`: hash the framing for `content.len()` followed by
the content, and render the digest in lowercase hex. The incremental
`hasher.update` calls are modelled by concatenating the fed byte runs. -/
def GitOid.generate_git_oid (g : GitOid) (content : List Nat) : String :=
  hexEncode (hashBytes g.hash_algorithm (framingBytes content.length ++ content))

/-- One outcome of a `reader.read(&mut buf)` call in the streaming loop:
`ok chunk` is `Ok(size)` with `chunk` the bytes placed in the buffer
(`size = chunk.length`, so `ok []` is `Ok(0)`), `err` is `Err(_)`. -/
inductive ReadEvent
  | ok (chunk : List Nat)
  | err

/-- The bytes the read loop of `generate_git_oid_from_buffer` feeds to the
hasher: `Ok(0)` and `Err(_)` both break the loop, `Ok(size)` feeds
`buf[..size]` and continues; an exhausted event list is end of stream. -/
def readLoop : List ReadEvent → List Nat
  | [] => []
  | ReadEvent.ok [] :: _ => []
  | ReadEvent.ok c :: rest => c ++ readLoop rest
  | ReadEvent.err :: _ => []

/-- `GitOid::generate_git_oid_from_buffer`: the framing is built from the
caller-supplied `expected_length`, then the read loop's bytes are hashed.
Both source branches run the identical loop, differing only in the hash. -/
def GitOid.generate_git_oid_from_buffer (g : GitOid) (reader : List ReadEvent)
    (expected_length : Nat) : String :=
  hexEncode (hashBytes g.hash_algorithm (framingBytes expected_length ++ readLoop reader))

/-! ### The manifest: `GitBom` -/

/-- Lexicographic comparison of char lists by code point, the order `Vec::sort`
uses on `String` (byte-wise UTF-8 comparison agrees with code-point order). -/
def charListLe : List Char → List Char → Bool
  | [], _ => true
  | _ :: _, [] => false
  | a :: as, b :: bs =>
    if a.toNat < b.toNat then true
    else if b.toNat < a.toNat then false
    else charListLe as bs

def strLeB (a b : String) : Bool := charListLe a.data b.data

def strLe (a b : String) : Prop := strLeB a b = true

structure GitBom where
  gitOids : List String

def GitBom.new : GitBom := ⟨[]⟩

/-- `GitBom::add`: push the identifier, then sort the whole vector ascending
(`Vec::sort` is a stable ascending sort, modelled by `List.mergeSort`). -/
def GitBom.add (bom : GitBom) (gitoid : String) : GitBom :=
  ⟨List.mergeSort (bom.gitOids ++ [gitoid]) strLeB⟩

/-! ### Spec-side definitions -/

/-- Modelled from the spec words for the hashed byte stream: the ASCII bytes of
"blob ", then the decimal representation of the content length, then a single
0x00 byte, then the raw content bytes, in that exact order. -/
def specBlobStream (content : List Nat) : List Nat :=
  [98, 108, 111, 98, 32] ++ (toString content.length).data.map Char.toNat ++ [0] ++ content

/-- The sixteen characters the spec's "lowercase hexadecimal" alphabet has. -/
def hexAlphabet : List Char := "0123456789abcdef".data

/-! ### Helper lemmas -/

lemma hexEncode_length (bs : List Nat) : (hexEncode bs).length = 2 * bs.length := by
  show (List.flatten (bs.map _)).length = 2 * bs.length
  induction bs with
  | nil => rfl
  | cons b t ih =>
    simp only [List.map_cons, List.flatten_cons, List.length_append, ih, List.length_cons,
      List.length_nil]
    omega

lemma hexChar_mem_hexAlphabet : ∀ n < 16, hexChar n ∈ hexAlphabet := by decide

lemma hexEncode_chars (bs : List Nat) : ∀ c ∈ (hexEncode bs).data, c ∈ hexAlphabet := by
  intro c hc
  have hc' : c ∈ List.flatten (bs.map (fun b => [hexChar ((b / 16) % 16), hexChar (b % 16)])) := hc
  rcases List.mem_flatten.mp hc' with ⟨l, hl, hcl⟩
  rcases List.mem_map.mp hl with ⟨b, _, rfl⟩
  rcases List.mem_cons.mp hcl with h | h
  · exact h ▸ hexChar_mem_hexAlphabet _ (Nat.mod_lt _ (by norm_num))
  · rcases List.mem_cons.mp h with h2 | h2
    · exact h2 ▸ hexChar_mem_hexAlphabet _ (Nat.mod_lt _ (by norm_num))
    · exact absurd h2 (List.not_mem_nil c)

lemma sha1Digest_length (msg : List Nat) : (sha1Digest msg).length = 20 := by
  simp [sha1Digest, wordBytes]

lemma sha256Digest_length (msg : List Nat) : (sha256Digest msg).length = 32 := by
  simp [sha256Digest, wordBytes]

lemma framingBytes_eq (n : Nat) :
    framingBytes n = [98, 108, 111, 98, 32] ++ (toString n).data.map Char.toNat ++ [0] := by
  show ("blob " ++ toString n ++ String.singleton (Char.ofNat 0)).data.map Char.toNat = _
  rw [String.data_append, String.data_append, List.map_append, List.map_append]
  rfl

lemma readLoop_map_ok : ∀ (chunks : List (List Nat)), (∀ c ∈ chunks, c ≠ []) →
    readLoop (chunks.map ReadEvent.ok) = chunks.flatten
  | [], _ => rfl
  | c :: cs, h => by
    match c, h with
    | [], h => exact absurd rfl (h [] (by simp))
    | b :: bs, h =>
      show (b :: bs) ++ readLoop (cs.map ReadEvent.ok) = (b :: bs) ++ cs.flatten
      rw [readLoop_map_ok cs (fun d hd => h d (List.mem_cons_of_mem _ hd))]

lemma readLoop_map_ok_err : ∀ (chunks : List (List Nat)), (∀ c ∈ chunks, c ≠ []) →
    ∀ (rest : List ReadEvent),
    readLoop (chunks.map ReadEvent.ok ++ ReadEvent.err :: rest) = chunks.flatten
  | [], _, rest => rfl
  | c :: cs, h, rest => by
    match c, h with
    | [], h => exact absurd rfl (h [] (by simp))
    | b :: bs, h =>
      show (b :: bs) ++ readLoop (cs.map ReadEvent.ok ++ ReadEvent.err :: rest) =
        (b :: bs) ++ cs.flatten
      rw [readLoop_map_ok_err cs (fun d hd => h d (List.mem_cons_of_mem _ hd)) rest]

lemma charListLe_trans : ∀ xs ys zs : List Char,
    charListLe xs ys = true → charListLe ys zs = true → charListLe xs zs = true
  | [], _, _, _, _ => rfl
  | _ :: _, [], _, h1, _ => by simp [charListLe] at h1
  | _ :: _, _ :: _, [], _, h2 => by simp [charListLe] at h2
  | a :: as, b :: bs, c :: cs, h1, h2 => by
    simp only [charListLe] at h1 h2 ⊢
    split_ifs at h1 h2 ⊢ <;>
      first
        | rfl
        | (exact charListLe_trans as bs cs h1 h2)
        | (exfalso; omega)

lemma charListLe_total : ∀ xs ys : List Char, (charListLe xs ys || charListLe ys xs) = true
  | [], _ => by simp [charListLe]
  | _ :: _, [] => by simp [charListLe]
  | a :: as, b :: bs => by
    simp only [charListLe]
    split_ifs <;> first | (exact charListLe_total as bs) | simp

lemma charListLe_antisymm : ∀ xs ys : List Char,
    charListLe xs ys = true → charListLe ys xs = true → xs = ys
  | [], [], _, _ => rfl
  | [], _ :: _, _, h2 => by simp [charListLe] at h2
  | _ :: _, [], h1, _ => by simp [charListLe] at h1
  | a :: as, b :: bs, h1, h2 => by
    simp only [charListLe] at h1 h2
    by_cases hab : a.toNat < b.toNat
    · rw [if_neg (by omega : ¬ b.toNat < a.toNat), if_pos hab] at h2
      exact absurd h2 (by simp)
    · by_cases hba : b.toNat < a.toNat
      · rw [if_neg hab, if_pos hba] at h1
        exact absurd h1 (by simp)
      · rw [if_neg hab, if_neg hba] at h1
        rw [if_neg hba, if_neg hab] at h2
        obtain rfl : a = b := Char.eq_of_val_eq (UInt32.ext (show a.toNat = b.toNat by omega))
        rw [charListLe_antisymm as bs h1 h2]

lemma strLeB_trans (a b c : String) :
    strLeB a b = true → strLeB b c = true → strLeB a c = true :=
  charListLe_trans a.data b.data c.data

lemma strLeB_total (a b : String) : (strLeB a b || strLeB b a) = true :=
  charListLe_total a.data b.data

instance : IsAntisymm String strLe :=
  ⟨fun a b h1 h2 => String.ext (charListLe_antisymm a.data b.data h1 h2)⟩

instance : DecidableRel strLe :=
  fun a b => inferInstanceAs (Decidable (strLeB a b = true))

lemma add_sorted (bom : GitBom) (x : String) : List.Sorted strLe (bom.add x).gitOids :=
  List.sorted_mergeSort strLeB_trans strLeB_total (bom.gitOids ++ [x])

lemma add_perm (bom : GitBom) (x : String) :
    (bom.add x).gitOids.Perm (x :: bom.gitOids) :=
  (List.mergeSort_perm (bom.gitOids ++ [x]) strLeB).trans
    (List.perm_append_singleton x bom.gitOids)

lemma add_length (bom : GitBom) (x : String) :
    (bom.add x).gitOids.length = bom.gitOids.length + 1 := by
  simp [GitBom.add, List.length_mergeSort]

lemma foldl_add_length : ∀ (l : List String) (bom : GitBom),
    ((l.foldl GitBom.add bom).gitOids).length = bom.gitOids.length + l.length
  | [], _ => by simp
  | x :: xs, bom => by
    simp only [List.foldl_cons, foldl_add_length xs (bom.add x), add_length, List.length_cons]
    omega

lemma foldl_add_perm : ∀ (l : List String) (bom : GitBom),
    ((l.foldl GitBom.add bom).gitOids).Perm (bom.gitOids ++ l)
  | [], bom => by simp
  | x :: xs, bom => by
    simp only [List.foldl_cons]
    refine (foldl_add_perm xs (bom.add x)).trans ?h
    refine (List.Perm.append_right xs (add_perm bom x)).trans ?h2
    exact List.perm_middle.symm

lemma foldl_add_cons_sorted : ∀ (l : List String) (bom : GitBom) (x : String),
    List.Sorted strLe (((x :: l).foldl GitBom.add bom).gitOids)
  | [], bom, x => add_sorted bom x
  | y :: ys, bom, x => foldl_add_cons_sorted ys (bom.add x) y

lemma hashOut_length_sha1 (msg : List Nat) :
    (hexEncode (hashBytes HashAlgorithm.SHA1 msg)).length = 40 := by
  rw [hexEncode_length, show hashBytes HashAlgorithm.SHA1 msg = sha1Digest msg from rfl,
    sha1Digest_length]

lemma hashOut_length_sha256 (msg : List Nat) :
    (hexEncode (hashBytes HashAlgorithm.SHA256 msg)).length = 64 := by
  rw [hexEncode_length, show hashBytes HashAlgorithm.SHA256 msg = sha256Digest msg from rfl,
    sha256Digest_length]

lemma hashOut_chars (alg : HashAlgorithm) (msg : List Nat) :
    (hexEncode (hashBytes alg msg)).data.all (fun c => decide (c ∈ hexAlphabet)) = true :=
  List.all_eq_true.mpr fun c hc => decide_eq_true (hexEncode_chars _ c hc)

/-! ### The claims -/

/-- Claim C1: for every byte sequence and either algorithm, `generate_git_oid`
returns the lowercase hexadecimal rendering (`hexEncode`) of the digest of the
byte stream formed by ASCII "blob ", the decimal representation of the content
length, a single 0x00 byte, and the raw content bytes, in that exact order
(`specBlobStream`). -/
theorem C1_blob_framing (g : GitOid) (content : List Nat) :
    g.generate_git_oid content =
      hexEncode (hashBytes g.hash_algorithm (specBlobStream content)) := by
  unfold GitOid.generate_git_oid specBlobStream
  rw [framingBytes_eq]

/-- Claim C2: if the stream yields exactly `n` bytes, equal to `content`, with
no read errors (every read is a successful non-empty chunk and the chunks
concatenate to `content` of length `n`), then the streaming path returns the
same identifier string as the buffer path on `content`. -/
theorem C2_streaming_matches_buffer (g : GitOid) (chunks : List (List Nat))
    (content : List Nat) (n : Nat) (hne : ∀ c ∈ chunks, c ≠ [])
    (hjoin : chunks.flatten = content) (hlen : content.length = n) :
    g.generate_git_oid_from_buffer (chunks.map ReadEvent.ok) n =
      g.generate_git_oid content := by
  unfold GitOid.generate_git_oid_from_buffer GitOid.generate_git_oid
  rw [readLoop_map_ok chunks hne, hjoin, hlen]

/-- Witness for C2 at the test's input: streaming "hello world" in one chunk
with declared length 11 equals the buffer computation. -/
theorem C2_streaming_matches_buffer_witness :
    (GitOid.mk HashAlgorithm.SHA1).generate_git_oid_from_buffer
        ([strBytes "hello world"].map ReadEvent.ok) 11 =
      (GitOid.mk HashAlgorithm.SHA1).generate_git_oid (strBytes "hello world") :=
  C2_streaming_matches_buffer (GitOid.mk HashAlgorithm.SHA1) [strBytes "hello world"]
    (strBytes "hello world") 11 (by decide) (by decide) (by decide)

set_option maxRecDepth 400000 in
/-- Claim C3: after every `add`, whatever the prior state and added identifier,
the stored sequence is sorted ascending lexicographically; and inserting the
SHA256 gitoids of "hello world", "hello world!", "hello world!!" (hex prefixes
fee5, ca50, 8f0d) in that order yields the final order 8f0d…, ca50…, fee5…. -/
theorem C3_add_keeps_sorted :
    (∀ (bom : GitBom) (x : String), List.Sorted strLe (bom.add x).gitOids) ∧
    (((GitBom.new.add
          ((GitOid.mk HashAlgorithm.SHA256).generate_git_oid (strBytes "hello world"))).add
          ((GitOid.mk HashAlgorithm.SHA256).generate_git_oid (strBytes "hello world!"))).add
          ((GitOid.mk HashAlgorithm.SHA256).generate_git_oid (strBytes "hello world!!"))).gitOids =
      ["8f0d781335ac4b6a53ba4a941b3c30bdaf7a4aa5302460dfbcff41789153c2c3",
       "ca505bc4d562eed2fe8e6842bc345a244a1ffa9b01be21cad66f5f1de6a71dfe",
       "fee53a18d32820613c0527aa79be5cb30173c823a9b448fa4817767cc84c6f03"] := by
  refine ⟨add_sorted, ?conc⟩
  rw [show (GitOid.mk HashAlgorithm.SHA256).generate_git_oid (strBytes "hello world") =
        "fee53a18d32820613c0527aa79be5cb30173c823a9b448fa4817767cc84c6f03" from by decide,
      show (GitOid.mk HashAlgorithm.SHA256).generate_git_oid (strBytes "hello world!") =
        "ca505bc4d562eed2fe8e6842bc345a244a1ffa9b01be21cad66f5f1de6a71dfe" from by decide,
      show (GitOid.mk HashAlgorithm.SHA256).generate_git_oid (strBytes "hello world!!") =
        "8f0d781335ac4b6a53ba4a941b3c30bdaf7a4aa5302460dfbcff41789153c2c3" from by decide]
  exact List.eq_of_perm_of_sorted
    ((add_perm _ _).trans (List.Perm.cons _ ((add_perm _ _).trans
      (List.Perm.cons _ (add_perm _ _)))))
    (add_sorted _ _) (by decide)

/-- Claim C4: a read error terminates the read loop (everything after it is
ignored), and the hash over the framing plus the bytes read before the error is
finalized and rendered as a normal identifier string — the result is the same
as for a stream that ended cleanly there, so no failure is distinguishable. -/
theorem C4_read_error_swallowed (g : GitOid) (chunks : List (List Nat))
    (hne : ∀ c ∈ chunks, c ≠ []) (rest : List ReadEvent) (n : Nat) :
    g.generate_git_oid_from_buffer (chunks.map ReadEvent.ok ++ ReadEvent.err :: rest) n =
      hexEncode (hashBytes g.hash_algorithm (framingBytes n ++ chunks.flatten)) ∧
    g.generate_git_oid_from_buffer (chunks.map ReadEvent.ok ++ ReadEvent.err :: rest) n =
      g.generate_git_oid_from_buffer (chunks.map ReadEvent.ok) n := by
  unfold GitOid.generate_git_oid_from_buffer
  rw [readLoop_map_ok_err chunks hne rest, readLoop_map_ok chunks hne]
  exact ⟨rfl, rfl⟩

/-- Witness for C4: two bytes read, then an error, then further events;
the result is the partial hash, identical to a clean end after two bytes. -/
theorem C4_read_error_swallowed_witness :
    (GitOid.mk HashAlgorithm.SHA1).generate_git_oid_from_buffer
        ([[104, 105]].map ReadEvent.ok ++ ReadEvent.err :: [ReadEvent.ok [1]]) 5 =
      hexEncode (hashBytes HashAlgorithm.SHA1 (framingBytes 5 ++ [[104, 105]].flatten)) ∧
    (GitOid.mk HashAlgorithm.SHA1).generate_git_oid_from_buffer
        ([[104, 105]].map ReadEvent.ok ++ ReadEvent.err :: [ReadEvent.ok [1]]) 5 =
      (GitOid.mk HashAlgorithm.SHA1).generate_git_oid_from_buffer
        ([[104, 105]].map ReadEvent.ok) 5 :=
  C4_read_error_swallowed (GitOid.mk HashAlgorithm.SHA1) [[104, 105]] (by decide)
    [ReadEvent.ok [1]] 5

set_option maxRecDepth 400000 in
/-- Claim C5: the streaming framing is built from the caller-supplied
`expected_length`, never from a measured stream length; for a 10-byte stream
declared with expected length 11 the result differs from the buffer computation
on the true 10-byte content, for both algorithms. -/
theorem C5_expected_length_not_measured :
    (∀ (g : GitOid) (r : List ReadEvent) (n : Nat),
        g.generate_git_oid_from_buffer r n =
          hexEncode (hashBytes g.hash_algorithm (framingBytes n ++ readLoop r))) ∧
    ((GitOid.mk HashAlgorithm.SHA1).generate_git_oid_from_buffer
        [ReadEvent.ok (strBytes "hello worl")] 11 ≠
      (GitOid.mk HashAlgorithm.SHA1).generate_git_oid (strBytes "hello worl")) ∧
    ((GitOid.mk HashAlgorithm.SHA256).generate_git_oid_from_buffer
        [ReadEvent.ok (strBytes "hello worl")] 11 ≠
      (GitOid.mk HashAlgorithm.SHA256).generate_git_oid (strBytes "hello worl")) :=
  ⟨fun _ _ _ => rfl, by decide, by decide⟩

/-- Claim C6: on both the buffer and streaming paths, for every input
(including the empty one), the SHA1 identifier is exactly 40 characters and the
SHA256 identifier exactly 64, and every character is a lowercase hex digit. -/
theorem C6_output_shape :
    ∀ (content : List Nat) (r : List ReadEvent) (n : Nat),
      ((GitOid.mk HashAlgorithm.SHA1).generate_git_oid content).length = 40 ∧
      ((GitOid.mk HashAlgorithm.SHA256).generate_git_oid content).length = 64 ∧
      ((GitOid.mk HashAlgorithm.SHA1).generate_git_oid_from_buffer r n).length = 40 ∧
      ((GitOid.mk HashAlgorithm.SHA256).generate_git_oid_from_buffer r n).length = 64 ∧
      ((GitOid.mk HashAlgorithm.SHA1).generate_git_oid content).data.all
        (fun c => decide (c ∈ hexAlphabet)) = true ∧
      ((GitOid.mk HashAlgorithm.SHA256).generate_git_oid content).data.all
        (fun c => decide (c ∈ hexAlphabet)) = true ∧
      ((GitOid.mk HashAlgorithm.SHA1).generate_git_oid_from_buffer r n).data.all
        (fun c => decide (c ∈ hexAlphabet)) = true ∧
      ((GitOid.mk HashAlgorithm.SHA256).generate_git_oid_from_buffer r n).data.all
        (fun c => decide (c ∈ hexAlphabet)) = true :=
  fun _ _ _ =>
    ⟨hashOut_length_sha1 _, hashOut_length_sha256 _, hashOut_length_sha1 _,
     hashOut_length_sha256 _, hashOut_chars _ _, hashOut_chars _ _, hashOut_chars _ _,
     hashOut_chars _ _⟩

/-- Claim C7: a manifest built by `new` holds zero identifiers, and after any
sequence of adds its length equals the number of adds, duplicates included. -/
theorem C7_length_counts_adds :
    GitBom.new.gitOids.length = 0 ∧
    ∀ (ids : List String), ((ids.foldl GitBom.add GitBom.new).gitOids).length = ids.length := by
  refine ⟨rfl, fun ids => ?len⟩
  rw [foldl_add_length ids GitBom.new]
  show 0 + ids.length = ids.length
  omega

/-- Claim C8: `generate_git_oid` is deterministic and pure — its output depends
only on the selected algorithm and the content, so any two generators with the
same algorithm produce identical strings on the same content (the shallow
embedding is a pure function, so there is no state a call could mutate). -/
theorem C8_deterministic (g1 g2 : GitOid) (h : g1.hash_algorithm = g2.hash_algorithm)
    (content : List Nat) :
    g1.generate_git_oid content = g2.generate_git_oid content := by
  cases g1
  cases g2
  cases h
  rfl

/-- Witness for C8 on SHA1 with empty content. -/
theorem C8_deterministic_witness :
    (GitOid.mk HashAlgorithm.SHA1).generate_git_oid [] =
      (GitOid.mk HashAlgorithm.SHA1).generate_git_oid [] :=
  C8_deterministic (GitOid.mk HashAlgorithm.SHA1) (GitOid.mk HashAlgorithm.SHA1) rfl []

set_option maxRecDepth 400000 in
/-- Claim C9: the gitoid of the 11-byte content "hello world" is
95d09f2b10159347eece71399a7e2e907ea3df4f under SHA1 and
fee53a18d32820613c0527aa79be5cb30173c823a9b448fa4817767cc84c6f03 under
SHA256, matching the repository's tests. -/
theorem C9_known_values :
    (GitOid.mk HashAlgorithm.SHA1).generate_git_oid (strBytes "hello world") =
      "95d09f2b10159347eece71399a7e2e907ea3df4f" ∧
    (GitOid.mk HashAlgorithm.SHA256).generate_git_oid (strBytes "hello world") =
      "fee53a18d32820613c0527aa79be5cb30173c823a9b448fa4817767cc84c6f03" :=
  ⟨by decide, by decide⟩

/-- Claim C10: `add` changes the stored collection exactly by inserting the
one identifier (the multiset afterwards is the multiset before plus it), and
the final contents of a manifest are determined by the multiset of identifiers
added, independent of insertion order. -/
theorem C10_add_is_multiset_insert :
    (∀ (bom : GitBom) (x : String), (bom.add x).gitOids.Perm (x :: bom.gitOids)) ∧
    (∀ (bom : GitBom) (l1 l2 : List String), l1.Perm l2 →
      (l1.foldl GitBom.add bom).gitOids = (l2.foldl GitBom.add bom).gitOids) := by
  refine ⟨add_perm, fun bom l1 l2 hp => ?ord⟩
  cases l1 with
  | nil =>
    obtain rfl : l2 = [] := hp.symm.eq_nil
    rfl
  | cons x xs =>
    cases l2 with
    | nil => exact absurd hp.eq_nil (List.cons_ne_nil x xs)
    | cons y ys =>
      exact List.eq_of_perm_of_sorted
        ((foldl_add_perm (x :: xs) bom).trans ((hp.append_left bom.gitOids).trans
          (foldl_add_perm (y :: ys) bom).symm))
        (foldl_add_cons_sorted xs bom x) (foldl_add_cons_sorted ys bom y)

/-- Witness for C10: adding "b" then "a" gives the same manifest contents as
adding "a" then "b". -/
theorem C10_add_is_multiset_insert_witness :
    (["b", "a"].foldl GitBom.add GitBom.new).gitOids =
      (["a", "b"].foldl GitBom.add GitBom.new).gitOids :=
  C10_add_is_multiset_insert.2 GitBom.new ["b", "a"] ["a", "b"] (List.Perm.swap "a" "b" [])

end GitbomRs
